import Mathlib

/-!
Verification of the thread-list adapter (`RedditModel`) in
`src/ci/redditclient/redditmodel.cpp` against its specification.

The adapter keeps an append-only list `threads : QList<QJsonObject>` of
listing records, exposes `rowCount` / `columnCount` / `data` to a tabular
view, and on each completed fetch parses the JSON listing envelope,
appends the `data.children` entries, and emits a row-insertion
notification via `beginInsertRows` / `endInsertRows`.

We embed the JSON value model (the subset of Qt's `QJsonValue` semantics
the code uses), the model's query functions, and the completion handler
(the lambda connected to `QNetworkReply::finished` inside
`RedditModel::update`).  `Q_ASSERT` failures are modelled as `none` /
absence of a result: an assertion failure aborts the program, so no
state or emission survives it.
-/

/-- A JSON value, following Qt's `QJsonValue`: `undefined` is Qt's
`Undefined` (returned by `QJsonObject::value` for a missing key). -/
inductive JsonValue where
  | undefined
  | null
  | bool (b : Bool)
  | num (n : Int)
  | str (s : String)
  | arr (elements : List JsonValue)
  | obj (fields : List (String × JsonValue))
deriving Repr

/-- A `QJsonObject`: an association of keys to values. -/
abbrev JsonObject := List (String × JsonValue)

/-- `QJsonObject::value(key)`: the value stored under `key`, or
`Undefined` when the key is absent. -/
def objValue (o : JsonObject) (key : String) : JsonValue :=
  match o.find? (fun p => p.1 == key) with
  | some p => p.2
  | none => .undefined

/-- `QJsonValue::isObject`. -/
def JsonValue.isObject : JsonValue → Bool
  | .obj _ => true
  | _ => false

/-- `QJsonValue::toObject`: the contained object, or the empty object
when the value is not an object (Qt's default). -/
def JsonValue.toObject : JsonValue → JsonObject
  | .obj fs => fs
  | _ => []

/-- `QJsonValue::isArray`. -/
def JsonValue.isArray : JsonValue → Bool
  | .arr _ => true
  | _ => false

/-- `QJsonValue::toArray`: the contained array, or the empty array when
the value is not an array (Qt's default). -/
def JsonValue.toArray : JsonValue → List JsonValue
  | .arr xs => xs
  | _ => []

/-- `QJsonValue::toString`: the contained string, or the null `QString`
(empty) when the value is not a string (Qt's default). -/
def JsonValue.toString : JsonValue → String
  | .str s => s
  | _ => ""

/-- A `QVariant` as the code produces it: either the invalid/absent
variant `QVariant()` or a string. -/
inductive QVariant where
  | null
  | str (s : String)
deriving Repr, DecidableEq

/-- Qt's `Qt::DisplayRole`. -/
def displayRole : Int := 0

/-- A `QModelIndex`: row, column, and whether it is attached to a model
(an invalid index has `row = -1`, `column = -1`, no model). -/
structure QModelIndex where
  row : Int
  column : Int
  attached : Bool
deriving Repr, DecidableEq

/-- `QModelIndex::isValid()`: attached and with non-negative row and
column. -/
def QModelIndex.isValid (i : QModelIndex) : Bool :=
  i.attached && decide (0 ≤ i.row) && decide (0 ≤ i.column)

/-- The invalid index `QModelIndex()`. -/
def QModelIndex.invalid : QModelIndex := ⟨-1, -1, false⟩

/-- `RedditModel::rowCount`: `threads.size()`. -/
def rowCount (threads : List JsonObject) : Int :=
  threads.length

/-- `RedditModel::columnCount`: `threads.size() ? 1 : 0`. -/
def columnCount (threads : List JsonObject) : Int :=
  if threads.length = 0 then 0 else 1

/-- `QAbstractTableModel::index(row, column)`: a valid index when
`hasIndex(row, column)` holds (row and column within range), the
invalid index otherwise. -/
def modelIndex (threads : List JsonObject) (row col : Int) : QModelIndex :=
  if 0 ≤ row ∧ row < rowCount threads ∧ 0 ≤ col ∧ col < columnCount threads then
    ⟨row, col, true⟩
  else
    QModelIndex.invalid

/-- `RedditModel::data`.  Returns `none` on a `Q_ASSERT` failure
(`threads.at` out of range, or a stored record whose `data` field is
not an object); otherwise `some` of the returned `QVariant`. -/
def dataFn (threads : List JsonObject) (index : QModelIndex) (role : Int) :
    Option QVariant :=
  if ¬ index.isValid then
    some .null
  else if role = displayRole then
    if h : index.row.toNat < threads.length then
      let childrenObject := threads.get ⟨index.row.toNat, h⟩
      if (objValue childrenObject "data").isObject then
        let dataObject := (objValue childrenObject "data").toObject
        some (.str (objValue dataObject "title").toString)
      else
        none
    else
      none
  else
    some .null

/-- The spec's `cellValue(rowIndex, role)`: query the model through a
model-produced index at column 0, as a view does. -/
def cellValue (threads : List JsonObject) (row : Int) (role : Int) :
    Option QVariant :=
  dataFn threads (modelIndex threads row 0) role

/-- A completed `QNetworkReply` as the handler observes it: either a
transport error carrying `errorString()`, or a success whose body has
been parsed by `QJsonDocument::fromJson` into `doc` (a non-object `doc`
covers the null document produced by a parse failure and array
documents). -/
inductive Reply where
  | err (msg : String)
  | success (doc : JsonValue)
deriving Repr

/-- A signal the handler emits: the model's `error` signal, and the
`rowsAboutToBeInserted` / `rowsInserted` pair produced by
`beginInsertRows` / `endInsertRows`. -/
inductive Event where
  | errorSignal (msg : String)
  | rowsAboutToBeInserted (first last : Int)
  | rowsInserted (first last : Int)
deriving Repr, DecidableEq

/-- Result of the completion handler: the final record list, and the
emitted signals in emission order, each paired with the contents of
`threads` visible to observers at the moment of emission
(`beginInsertRows` emits `rowsAboutToBeInserted` before the appends,
`endInsertRows` emits `rowsInserted` after all of them). -/
structure UpdateResult where
  threads : List JsonObject
  emissions : List (Event × List JsonObject)
deriving Repr

/-- The append loop of the handler: `Q_ASSERT(childValue.isObject())`
then `threads.append(childValue.toObject())` for each child, in order.
`none` on an assertion failure. -/
def appendChildren (acc : List JsonObject) : List JsonValue → Option (List JsonObject)
  | [] => some acc
  | c :: cs =>
    if c.isObject then appendChildren (acc ++ [c.toObject]) cs else none

/-- The lambda connected to `QNetworkReply::finished` inside
`RedditModel::update`, acting on the record list `threads` it
captured.  `none` models a fatal `Q_ASSERT` failure. -/
def updateFinished (threads : List JsonObject) (reply : Reply) :
    Option UpdateResult :=
  match reply with
  | .err msg => some ⟨threads, [(.errorSignal msg, threads)]⟩
  | .success doc =>
    if ¬ doc.isObject then none else
    let rootObject := doc.toObject
    if ¬ ((objValue rootObject "kind").toString == "Listing") then none else
    let dataValue := objValue rootObject "data"
    if ¬ dataValue.isObject then none else
    let dataObject := dataValue.toObject
    let childrenValue := objValue dataObject "children"
    if ¬ childrenValue.isArray then none else
    let childrenArray := childrenValue.toArray
    if childrenArray.isEmpty then some ⟨threads, []⟩ else
    let first : Int := threads.length
    let last : Int := childrenArray.length + threads.length - 1
    (appendChildren threads childrenArray).map (fun newThreads =>
      ⟨newThreads,
        [(.rowsAboutToBeInserted first last, threads),
         (.rowsInserted first last, newThreads)]⟩)

/-- The shape the handler asserts of a parsed document: object root,
`kind == "Listing"`, `data` an object, `data.children` an array, every
child an object. -/
def wellShaped (doc : JsonValue) : Bool :=
  doc.isObject &&
  ((objValue doc.toObject "kind").toString == "Listing") &&
  (objValue doc.toObject "data").isObject &&
  (objValue (objValue doc.toObject "data").toObject "children").isArray &&
  ((objValue (objValue doc.toObject "data").toObject "children").toArray.all
    (fun c => c.isObject))

/-- The `data.children` array of a parsed document (empty for any value
Qt would not treat as an array, matching `toObject` / `toArray`
defaults). -/
def childrenOf (doc : JsonValue) : List JsonValue :=
  (objValue (objValue doc.toObject "data").toObject "children").toArray

/-- Number of children a completion contributes (0 for an error reply). -/
def replyChildren (r : Reply) : Nat :=
  match r with
  | .err _ => 0
  | .success doc => (childrenOf doc).length

/-- Run a sequence of completions in order, starting from `threads`;
`none` as soon as one assert-fails. -/
def processAll (threads : List JsonObject) : List Reply → Option (List JsonObject)
  | [] => some threads
  | r :: rs =>
    match updateFinished threads r with
    | none => none
    | some res => processAll res.threads rs

/-- The `data.title` string of a stored record, as the display query
reads it. -/
def titleOf (rec : JsonObject) : String :=
  (objValue (objValue rec "data").toObject "title").toString

/-- Adapter state beyond the record list: whether `grant()` has
connected the wrapper's `authenticated` signal to `update` (the only
authentication-related state the adapter holds). -/
structure RedditModel where
  threads : List JsonObject
  authConnected : Bool
deriving Repr

/-- `RedditModel(QObject *parent)`: the default constructor; it does
not call `grant()`, so `update` is never connected. -/
def RedditModel.mkDefault : RedditModel := ⟨[], false⟩

/-- `RedditModel(const QString &clientId, QObject *parent)`: calls
`grant()`, which connects the `authenticated` signal to `update`. -/
def RedditModel.mkWithClientId : RedditModel := ⟨[], true⟩

/-- `RedditModel::update` up to and including issuing the request:
`redditWrapper.requestHotThreads()` is called unconditionally, so
exactly one fetch is issued and the record list is untouched
synchronously.  Returns the new state and the number of fetches
issued. -/
def RedditModel.updateCall (m : RedditModel) : RedditModel × Nat :=
  (m, 1)

/-- The `authenticated` signal firing: it invokes `update` exactly when
the connection made in `grant()` exists. -/
def RedditModel.onAuthenticated (m : RedditModel) : RedditModel × Nat :=
  if m.authConnected then m.updateCall else (m, 0)

/-- Is an emission the rows-inserted notification? -/
def Event.isRowsInserted : Event → Bool
  | .rowsInserted _ _ => true
  | _ => false

/-- A listing record titled `t`, as the upstream endpoint returns it. -/
def cRec (t : String) : JsonObject :=
  [("kind", .str "t3"), ("data", .obj [("title", .str t)])]

/-- A listing child wrapping `cRec t`. -/
def cChild (t : String) : JsonValue := .obj (cRec t)

/-- A well-shaped listing document with three children A, B, C. -/
def cDoc3 : JsonValue :=
  .obj [("kind", .str "Listing"),
        ("data", .obj [("children", .arr [cChild "A", cChild "B", cChild "C"])])]

/-- A well-shaped listing document with two children D, E. -/
def cDoc2 : JsonValue :=
  .obj [("kind", .str "Listing"),
        ("data", .obj [("children", .arr [cChild "D", cChild "E"])])]

/-- The five records after applying `cDoc3` then `cDoc2` to an empty list. -/
def cFinal5 : List JsonObject :=
  [cRec "A", cRec "B", cRec "C", cRec "D", cRec "E"]

/-- A well-shaped listing document whose single child is an object but
has no `data` object — it passes every insertion-time assertion yet
violates the invariant the display query relies on. -/
def cDocNoData : JsonValue :=
  .obj [("kind", .str "Listing"),
        ("data", .obj [("children", .arr [.obj [("kind", .str "t3")]])])]

/-! ### Helper lemmas -/

theorem appendChildren_eq_of_some (cs : List JsonValue) :
    ∀ (acc out : List JsonObject), appendChildren acc cs = some out →
      out = acc ++ cs.map JsonValue.toObject := by
  induction cs with
  | nil =>
    intro acc out h
    simp only [appendChildren, Option.some.injEq] at h
    simp [h]
  | cons c cs ih =>
    intro acc out h
    simp only [appendChildren] at h
    by_cases hc : c.isObject = true
    · rw [if_pos hc] at h
      have := ih _ _ h
      simp [this]
    · rw [if_neg hc] at h
      cases h

theorem appendChildren_isSome (cs : List JsonValue) :
    ∀ (acc : List JsonObject),
      (appendChildren acc cs).isSome = cs.all (fun c => c.isObject) := by
  induction cs with
  | nil => intro acc; simp [appendChildren]
  | cons c cs ih =>
    intro acc
    simp only [appendChildren, List.all_cons]
    by_cases hc : c.isObject = true
    · rw [if_pos hc, hc, Bool.true_and]; exact ih _
    · rw [if_neg hc]
      simp [Bool.eq_false_iff.mpr hc]

theorem appendChildren_of_all (cs : List JsonValue)
    (h : cs.all (fun c => c.isObject) = true) (acc : List JsonObject) :
    appendChildren acc cs = some (acc ++ cs.map JsonValue.toObject) := by
  have hs : (appendChildren acc cs).isSome = true := by
    rw [appendChildren_isSome]; exact h
  obtain ⟨out, hout⟩ := Option.isSome_iff_exists.mp hs
  rw [hout, appendChildren_eq_of_some cs acc out hout]

theorem wellShaped_parts (doc : JsonValue) (h : wellShaped doc = true) :
    doc.isObject = true ∧
    ((objValue doc.toObject "kind").toString == "Listing") = true ∧
    (objValue doc.toObject "data").isObject = true ∧
    (objValue (objValue doc.toObject "data").toObject "children").isArray = true ∧
    ((childrenOf doc).all (fun c => c.isObject)) = true := by
  simp only [wellShaped, Bool.and_eq_true] at h
  exact ⟨h.1.1.1.1, h.1.1.1.2, h.1.1.2, h.1.2, h.2⟩

theorem updateFinished_of_wellShaped (threads : List JsonObject)
    (doc : JsonValue) (h : wellShaped doc = true) :
    updateFinished threads (.success doc) =
      (if (childrenOf doc).isEmpty then some ⟨threads, []⟩
       else
        some ⟨threads ++ (childrenOf doc).map JsonValue.toObject,
          [(.rowsAboutToBeInserted threads.length
              ((childrenOf doc).length + threads.length - 1), threads),
           (.rowsInserted threads.length
              ((childrenOf doc).length + threads.length - 1),
            threads ++ (childrenOf doc).map JsonValue.toObject)]⟩) := by
  obtain ⟨h1, h2, h3, h4, h5⟩ := wellShaped_parts doc h
  have hch : (objValue (objValue doc.toObject "data").toObject "children").toArray
      = childrenOf doc := rfl
  by_cases he : (childrenOf doc).isEmpty = true
  · simp [updateFinished, h1, h2, h3, h4, hch, he]
  · simp [updateFinished, h1, h2, h3, h4, hch, he, appendChildren_of_all _ h5]

theorem updateFinished_threads_of_some (threads : List JsonObject)
    (reply : Reply) (res : UpdateResult)
    (h : updateFinished threads reply = some res) :
    ∃ added, res.threads = threads ++ added ∧
      added.length = replyChildren reply := by
  cases reply with
  | err msg =>
    refine ⟨[], ?_, rfl⟩
    simp only [updateFinished, Option.some.injEq] at h
    simp [← h]
  | success doc =>
    simp only [updateFinished] at h
    by_cases h1 : doc.isObject = true
    swap
    · simp [h1] at h
    by_cases h2 : ((objValue doc.toObject "kind").toString == "Listing") = true
    swap
    · simp [h1, h2] at h
    by_cases h3 : (objValue doc.toObject "data").isObject = true
    swap
    · simp [h1, h2, h3] at h
    by_cases h4 : (objValue (objValue doc.toObject "data").toObject "children").isArray = true
    swap
    · simp [h1, h2, h3, h4] at h
    simp only [h1, h2, h3, h4, not_true, Bool.not_eq_true, if_false] at h
    by_cases he : (childrenOf doc).isEmpty = true
    · rw [if_pos (by exact he)] at h
      obtain rfl := Option.some.inj h
      have hnil : childrenOf doc = [] := List.isEmpty_iff.mp he
      exact ⟨[], (List.append_nil threads).symm, by simp [replyChildren, hnil]⟩
    · rw [if_neg (by exact he)] at h
      cases happ : appendChildren threads
          (objValue (objValue doc.toObject "data").toObject "children").toArray with
      | none => rw [happ] at h; simp at h
      | some out =>
        rw [happ] at h
        simp only [Option.map_some', Option.some.injEq] at h
        refine ⟨(childrenOf doc).map JsonValue.toObject, ?_, by simp [replyChildren]⟩
        rw [← h]
        exact appendChildren_eq_of_some _ _ _ happ

theorem cellValue_inRange (threads : List JsonObject) (i : Nat)
    (hi : i < threads.length)
    (hobj : (objValue (threads.getD i []) "data").isObject = true) :
    cellValue threads (i : Int) displayRole =
      some (.str (titleOf (threads.getD i []))) := by
  have hne : threads.length ≠ 0 := Nat.pos_iff_ne_zero.mp (Nat.lt_of_le_of_lt (Nat.zero_le i) hi)
  have hcond : 0 ≤ (i : Int) ∧ (i : Int) < rowCount threads ∧
      (0 : Int) ≤ 0 ∧ (0 : Int) < columnCount threads := by
    refine ⟨Int.natCast_nonneg i, ?_, le_refl 0, ?_⟩
    · simp only [rowCount]
      exact_mod_cast hi
    · simp [columnCount, hne]
  rw [cellValue, modelIndex, if_pos hcond]
  have hvalid : (QModelIndex.mk (i : Int) 0 true).isValid = true := by
    simp [QModelIndex.isValid]
  have hget : threads.getD i [] = threads[i] :=
    List.getD_eq_getElem threads [] hi
  rw [hget] at hobj
  rw [hget]
  simp [dataFn, hvalid, Int.toNat_natCast, hi, hobj, titleOf]

theorem isSome_map {α β : Type} (f : α → β) (o : Option α) :
    (o.map f).isSome = o.isSome := by
  cases o <;> rfl

/-! ### Claims -/

/-- Claim C2: a fetch completion signaling a transport error emits
exactly one `error` notification carrying the transport's error string,
mutates nothing (the record list is exactly as before), and emits no
rows-inserted notification. -/
theorem c2_error_noop (threads : List JsonObject) (msg : String) :
    updateFinished threads (.err msg) =
      some ⟨threads, [(.errorSignal msg, threads)]⟩ :=
  rfl

/-- Claim C5: for every negative or out-of-range row index, `cellValue`
returns the absent `QVariant()` (a `some`, so no assertion failure), for
any role including the display role. -/
theorem c5_invalid_row_absent (threads : List JsonObject) (row role : Int)
    (h : row < 0 ∨ rowCount threads ≤ row) :
    cellValue threads row role = some QVariant.null := by
  have hcond : ¬ (0 ≤ row ∧ row < rowCount threads ∧ (0 : Int) ≤ 0 ∧
      (0 : Int) < columnCount threads) := by
    rcases h with h | h
    · exact fun hc => absurd hc.1 (not_le.mpr h)
    · exact fun hc => absurd hc.2.1 (not_lt.mpr h)
  rw [cellValue, modelIndex, if_neg hcond]
  rfl

/-- Witness for C5 at concrete inputs: an out-of-range row on an empty
model and a negative row on a non-empty model, under a non-display
role as well. -/
theorem c5_witness :
    cellValue [] 5 0 = some QVariant.null ∧
      cellValue [[("kind", JsonValue.str "t3")]] (-1) 7 = some QVariant.null :=
  ⟨c5_invalid_row_absent [] 5 0 (Or.inr (by decide)),
   c5_invalid_row_absent [[("kind", JsonValue.str "t3")]] (-1) 7 (Or.inl (by decide))⟩

/-- Claim C6: a completion whose parsed children array is empty is a
silent no-op: the record list is unchanged and no signal of any kind is
emitted. -/
theorem c6_empty_batch_noop (threads : List JsonObject) (doc : JsonValue)
    (hws : wellShaped doc = true)
    (he : (childrenOf doc).isEmpty = true) :
    updateFinished threads (.success doc) = some ⟨threads, []⟩ := by
  rw [updateFinished_of_wellShaped _ _ hws, if_pos he]

/-- Witness for C6: an empty listing applied to a one-record model. -/
theorem c6_witness :
    updateFinished [[("kind", JsonValue.str "t3")]]
        (.success (.obj [("kind", .str "Listing"),
          ("data", .obj [("children", .arr [])])])) =
      some ⟨[[("kind", JsonValue.str "t3")]], []⟩ :=
  c6_empty_batch_noop [[("kind", JsonValue.str "t3")]]
    (.obj [("kind", .str "Listing"), ("data", .obj [("children", .arr [])])])
    (by decide) (by decide)

/-- Claim C7: on a non-error completion the handler asserts the
listing shape (object root, `kind == "Listing"`, object `data`, array
`data.children`, every child an object); the handler survives (returns
a result rather than assertion-failing) exactly when the document is
well shaped. -/
theorem c7_shape_assertions (threads : List JsonObject) (doc : JsonValue) :
    (updateFinished threads (.success doc)).isSome = wellShaped doc := by
  by_cases h1 : doc.isObject = true
  swap
  · simp [updateFinished, wellShaped, h1]
  by_cases h2 : ((objValue doc.toObject "kind").toString == "Listing") = true
  swap
  · simp [updateFinished, wellShaped, h1, h2]
  by_cases h3 : (objValue doc.toObject "data").isObject = true
  swap
  · simp [updateFinished, wellShaped, h1, h2, h3]
  by_cases h4 : (objValue (objValue doc.toObject "data").toObject "children").isArray = true
  swap
  · simp [updateFinished, wellShaped, h1, h2, h3, h4]
  by_cases he :
      (objValue (objValue doc.toObject "data").toObject "children").toArray.isEmpty = true
  · have hnil := List.isEmpty_iff.mp he
    simp [updateFinished, wellShaped, h1, h2, h3, h4, he, hnil]
  · simp only [updateFinished, wellShaped, h1, h2, h3, h4, not_true, Bool.not_eq_true,
      if_false, if_neg he, isSome_map, appendChildren_isSome]
    simp

/-- Claim C8: `columnCount()` is 0 when `rowCount()` is 0 and 1
otherwise; equivalently it is 1 exactly when the record list is
non-empty. -/
theorem c8_degenerate_column_count (threads : List JsonObject) :
    columnCount threads = (if rowCount threads = 0 then 0 else 1) ∧
      (columnCount threads = 1 ↔ threads ≠ []) := by
  constructor
  · by_cases h : threads.length = 0 <;>
      simp [columnCount, rowCount, h]
  · by_cases h : threads = [] <;>
      simp [columnCount, h]

/-- Counterexample to claim C9 as stated: the default-constructed
adapter has no authenticated session, yet calling `update` is not a
no-op — `requestHotThreads()` is invoked unconditionally, so one fetch
is issued (not zero). -/
theorem c9_counterexample :
    ¬ (RedditModel.mkDefault.updateCall.2 = 0 ∧
        RedditModel.mkDefault.updateCall.1 = RedditModel.mkDefault) :=
  fun h => absurd h.1 (by decide)

/-- Claim C9 (amended): `update()` unconditionally issues exactly one
fetch and leaves the adapter state (the record list included) unchanged
synchronously; in the unauthenticated construction path `update` is
simply never invoked, because the `authenticated` signal is only
connected by `grant()`, which only the client-id constructor calls. -/
theorem c9_update_unconditional (m : RedditModel) :
    m.updateCall = (m, 1) ∧
      RedditModel.mkDefault.onAuthenticated = (RedditModel.mkDefault, 0) :=
  ⟨rfl, rfl⟩

theorem processAll_length (rs : List Reply) :
    ∀ (threads final : List JsonObject), processAll threads rs = some final →
      final.length = threads.length + (rs.map replyChildren).sum := by
  induction rs with
  | nil =>
    intro t f h
    obtain rfl := Option.some.inj h
    simp
  | cons r rs ih =>
    intro t f h
    simp only [processAll] at h
    cases hu : updateFinished t r with
    | none => rw [hu] at h; cases h
    | some res =>
      rw [hu] at h
      obtain ⟨added, hadd, hcount⟩ := updateFinished_threads_of_some t r res hu
      have hlen := ih _ _ h
      rw [hlen, hadd]
      simp only [List.map_cons, List.sum_cons, List.length_append, hcount]
      omega

/-- Claim C3: starting from the empty list, after a sequence of
successful completions whose children arrays have lengths `k_1..k_i`,
`rowCount()` equals `k_1 + ... + k_i`. -/
theorem c3_rowcount_sum (docs : List JsonValue) (final : List JsonObject)
    (h : processAll [] (docs.map .success) = some final) :
    rowCount final = ((docs.map (fun d => (childrenOf d).length)).sum : Int) := by
  have hlen := processAll_length (docs.map .success) [] final h
  simp only [rowCount, hlen, List.length_nil, Nat.zero_add, List.map_map]
  rfl

/-- Claim C4: the record list is append-only: a completion leaves every
previously stored record at its index and adds new records only after
the previous end. -/
theorem c4_append_only (threads : List JsonObject) (reply : Reply)
    (res : UpdateResult) (h : updateFinished threads reply = some res) :
    (∀ j, j < threads.length → res.threads[j]? = threads[j]?) ∧
      ∃ added, res.threads = threads ++ added := by
  obtain ⟨added, hadd, -⟩ := updateFinished_threads_of_some threads reply res h
  refine ⟨?_, added, hadd⟩
  intro j hj
  rw [hadd, List.getElem?_append, if_pos hj]

/-- Claim C1: a successful completion with a non-empty children array of
length `k`, arriving when the record list has length `N`, appends the
children in order, emits exactly one rows-inserted notification covering
`[N, N+k-1]`, that notification is emitted only after all `k` appends
(the record list visible at its emission is the fully appended list),
and afterwards `cellValue(N) .. cellValue(N+k-1)` return the `data.title`
strings of the new children in their original array order. -/
theorem c1_rows_inserted_notification (threads : List JsonObject)
    (doc : JsonValue)
    (hws : wellShaped doc = true)
    (hne : (childrenOf doc).isEmpty = false)
    (hdata : ((childrenOf doc).all
      (fun c => (objValue c.toObject "data").isObject)) = true) :
    ∃ res, updateFinished threads (.success doc) = some res ∧
      res.threads = threads ++ (childrenOf doc).map JsonValue.toObject ∧
      res.emissions.filter (fun e => e.1.isRowsInserted) =
        [(.rowsInserted (threads.length : Int)
            ((threads.length : Int) + (childrenOf doc).length - 1),
          res.threads)] ∧
      ∀ j, j < (childrenOf doc).length →
        cellValue res.threads ((threads.length + j : Nat) : Int) displayRole =
          some (.str (titleOf ((childrenOf doc).getD j JsonValue.null).toObject)) := by
  rw [updateFinished_of_wellShaped _ _ hws, if_neg (by simp [hne])]
  refine ⟨_, rfl, rfl, ?_, ?_⟩
  · have hb : ((childrenOf doc).length : Int) + (threads.length : Int) - 1 =
        (threads.length : Int) + ((childrenOf doc).length : Int) - 1 := by ring
    simp [List.filter, Event.isRowsInserted, hb]
  · intro j hj
    have hi : threads.length + j <
        (threads ++ (childrenOf doc).map JsonValue.toObject).length := by
      simp only [List.length_append, List.length_map]
      omega
    have hgetr :
        (threads ++ (childrenOf doc).map JsonValue.toObject).getD
            (threads.length + j) [] =
          ((childrenOf doc).getD j JsonValue.null).toObject := by
      rw [List.getD_append_right _ _ _ _ (Nat.le_add_right _ _),
        Nat.add_sub_cancel_left]
      rw [List.getD_eq_getElem _ _ (by simpa using hj), List.getElem_map,
        ← List.getD_eq_getElem (childrenOf doc) JsonValue.null hj]
    have hobj : (objValue
        ((threads ++ (childrenOf doc).map JsonValue.toObject).getD
          (threads.length + j) []) "data").isObject = true := by
      rw [hgetr]
      have hmem : (childrenOf doc).getD j JsonValue.null ∈ childrenOf doc := by
        rw [List.getD_eq_getElem (childrenOf doc) JsonValue.null hj]
        exact List.getElem_mem hj
      exact List.all_eq_true.mp hdata _ hmem
    have hcv := cellValue_inRange
      (threads ++ (childrenOf doc).map JsonValue.toObject)
      (threads.length + j) hi hobj
    rw [hcv, hgetr]

/-- Witness for C1 at a concrete input: three children titled A, B, C
appended to the empty model; the single rows-inserted notification
covers `[0, 2]` and carries the fully appended list. -/
theorem c1_witness :
    ∃ res, updateFinished [] (.success cDoc3) = some res ∧
      res.threads = (childrenOf cDoc3).map JsonValue.toObject ∧
      res.emissions.filter (fun e => e.1.isRowsInserted) =
        [(.rowsInserted 0 ((0 : Int) + (childrenOf cDoc3).length - 1),
          res.threads)] ∧
      ∀ j, j < (childrenOf cDoc3).length →
        cellValue res.threads ((0 + j : Nat) : Int) displayRole =
          some (.str (titleOf ((childrenOf cDoc3).getD j JsonValue.null).toObject)) :=
  c1_rows_inserted_notification [] cDoc3 (by decide) (by decide) (by decide)

/-- Witness for C3 at a concrete input: a batch of three then a batch of
two children, starting from the empty list, give `rowCount() = 3 + 2`. -/
theorem c3_witness :
    rowCount cFinal5 =
      (([cDoc3, cDoc2].map (fun d => (childrenOf d).length)).sum : Int) :=
  c3_rowcount_sum [cDoc3, cDoc2] cFinal5 rfl

/-- Witness for C4 at a concrete input: appending a two-child batch to a
one-record list leaves index 0 intact and adds the new records at the
end. -/
theorem c4_witness :
    (∀ j, j < [cRec "A"].length →
        (UpdateResult.mk [cRec "A", cRec "D", cRec "E"]
          [(.rowsAboutToBeInserted 1 2, [cRec "A"]),
           (.rowsInserted 1 2, [cRec "A", cRec "D", cRec "E"])]).threads[j]? =
          [cRec "A"][j]?) ∧
      ∃ added,
        (UpdateResult.mk [cRec "A", cRec "D", cRec "E"]
          [(.rowsAboutToBeInserted 1 2, [cRec "A"]),
           (.rowsInserted 1 2, [cRec "A", cRec "D", cRec "E"])]).threads =
          [cRec "A"] ++ added :=
  c4_append_only [cRec "A"] (.success cDoc2)
    ⟨[cRec "A", cRec "D", cRec "E"],
     [(.rowsAboutToBeInserted 1 2, [cRec "A"]),
      (.rowsInserted 1 2, [cRec "A", cRec "D", cRec "E"])]⟩ rfl

theorem cellValue_inRange_assertFailure (threads : List JsonObject) (i : Nat)
    (hi : i < threads.length)
    (hobj : (objValue (threads.getD i []) "data").isObject = false) :
    cellValue threads (i : Int) displayRole = none := by
  have hne : threads.length ≠ 0 :=
    Nat.pos_iff_ne_zero.mp (Nat.lt_of_le_of_lt (Nat.zero_le i) hi)
  have hcond : 0 ≤ (i : Int) ∧ (i : Int) < rowCount threads ∧
      (0 : Int) ≤ 0 ∧ (0 : Int) < columnCount threads := by
    refine ⟨Int.natCast_nonneg i, ?_, le_refl 0, ?_⟩
    · simp only [rowCount]
      exact_mod_cast hi
    · simp [columnCount, hne]
  rw [cellValue, modelIndex, if_pos hcond]
  have hvalid : (QModelIndex.mk (i : Int) 0 true).isValid = true := by
    simp [QModelIndex.isValid]
  have hget : threads.getD i [] = threads[i] :=
    List.getD_eq_getElem threads [] hi
  rw [hget] at hobj
  simp [dataFn, hvalid, Int.toNat_natCast, hi, hobj]

/-- Claim C10: a display-role query at a valid in-range index asserts
that the stored record's `data` field is an object and fails fatally
otherwise; insertion does not establish that invariant — a well-shaped
batch whose child lacks a `data` object is appended without complaint,
and the subsequent display query assertion-fails. -/
theorem c10_display_requires_data_object :
    (∀ (threads : List JsonObject) (i : Nat), i < threads.length →
        (objValue (threads.getD i []) "data").isObject = false →
        cellValue threads (i : Int) displayRole = none) ∧
      updateFinished [] (.success cDocNoData) =
        some ⟨[[("kind", JsonValue.str "t3")]],
          [(.rowsAboutToBeInserted 0 0, []),
           (.rowsInserted 0 0, [[("kind", JsonValue.str "t3")]])]⟩ ∧
      cellValue [[("kind", JsonValue.str "t3")]] 0 displayRole = none :=
  ⟨fun threads i hi hobj => cellValue_inRange_assertFailure threads i hi hobj,
   rfl, rfl⟩

/-- Witness for C10's quantified part at a concrete input: the record
inserted from `cDocNoData` makes the display query assertion-fail. -/
theorem c10_witness :
    cellValue [[("kind", JsonValue.str "t3")]] ((0 : Nat) : Int) displayRole
      = none :=
  c10_display_requires_data_object.1 [[("kind", JsonValue.str "t3")]] 0
    (by decide) (by decide)
